import Mathlib

/-!
Verification of the CenteralAuth OAuth/OpenID broker (Go) against its
natural-language specification.

The Go sources are shallowly embedded: strings are `List Char`, byte
slices are `List Nat`, `time.Time` is `Int` (absolute instants; Go
`t.After(u)` is `t > u`; the 5-minute state expiry and 30-second code
expiry are the constants 300 and 30 in seconds).  Cryptographic and
serialization primitives from the Go standard library (JSON
marshalling, base64url, HMAC-SHA256, AES-GCM, crypto/rand) are modelled
as abstract function bundles; the broker's own logic (field filling,
token layout, splitting, error branching, ordering of checks) is
translated from the source line by line.  The random inputs consumed by
`crypto/rand.Read` are passed in explicitly.
-/

namespace CentralAuth

/-- Go `string` values manipulated by the broker. -/
abbrev Str := List Char

/-- Go `[]byte` values. -/
abbrev Bytes := List Nat

/-! ## Domain model (internal/domain/models.go) -/

/-- UserInfo is the normalized user profile returned by any provider. -/
structure UserInfo where
  providerName : Str
  providerID : Str
  username : Str
  displayName : Str
  avatarURL : Str
  email : Str
deriving DecidableEq

/-- StatePayload is the data embedded in the HMAC-signed OAuth state token. -/
structure StatePayload where
  clientID : Str
  provider : Str
  redirectURI : Str
  nonce : Str
  expiresAt : Int
deriving DecidableEq

/-- ExchangePayload is the data encrypted inside an exchange code. -/
structure ExchangePayload where
  clientID : Str
  expiresAt : Int
  user : UserInfo
deriving DecidableEq

/-- ClientApp is a registered client application. -/
structure ClientApp where
  id : Str
  name : Str
  apiKey : Str
  allowedCallbacks : List Str
  allowedProviders : List Str
deriving DecidableEq

/-- AuthResult wraps the user profile returned to the redeeming client. -/
structure AuthResult where
  user : UserInfo
deriving DecidableEq

/-! ## Byte-level helpers (Go encoding/hex, strings.SplitN, strings.TrimPrefix) -/

/-- One lowercase hex digit, as produced by Go `encoding/hex`. -/
def hexDigit (n : Nat) : Char :=
  if n < 10 then Char.ofNat (48 + n) else Char.ofNat (87 + n)

/-- Hex encoding of a single byte (two lowercase digits). -/
def hexByte (b : Nat) : List Char :=
  [hexDigit (b / 16), hexDigit (b % 16)]

/-- Go `hex.EncodeToString`: lowercase hex of a byte slice. -/
def hexEncode (bs : Bytes) : Str :=
  (bs.map hexByte).flatten

/-- Go `strings.SplitN(s, sep, 2)` restricted to a one-character
separator: `none` when the separator does not occur (Go returns a
one-element slice), otherwise the parts before and after the first
occurrence. -/
def splitOnce (sep : Char) : Str → Option (Str × Str)
  | [] => none
  | c :: cs =>
    if c = sep then some ([], cs)
    else (splitOnce sep cs).map (fun p => (c :: p.1, p.2))

/-- Go `strings.TrimPrefix`: drops `pre` when it is a prefix, otherwise
returns the input unchanged. -/
def trimPre (pre l : Str) : Str :=
  if pre.isPrefixOf l then l.drop pre.length else l

/-! ## State token service (internal/state/token.go) -/

/-- Errors returned by `state.Service.Validate`. -/
inductive StateError
  | malformed
  | invalid
  | expired
deriving DecidableEq

/-- Abstract bundle of the standard-library primitives the state service
uses: `json.Marshal`/`json.Unmarshal` for `StatePayload`,
`base64.RawURLEncoding`, and `sign` for the service's
base64url-encoded HMAC-SHA256 under its key (a deterministic function
of the signed data, as in the source's `Service.sign`). -/
structure StateEnv where
  marshal : StatePayload → Bytes
  unmarshal : Bytes → Option StatePayload
  b64enc : Bytes → Str
  b64dec : Str → Option Bytes
  sign : Str → Str

/-- The source's `defaultExpiry = 5 * time.Minute`, in seconds. -/
def stateExpiry : Int := 300

/-- The source's `nonceBytes = 16`. -/
def stateNonceBytes : Nat := 16

namespace State

/-- `state.Service.Generate`: fill the nonce with the hex encoding of
the random bytes read from `crypto/rand` (passed as `nonce`), set
`expires_at = now() + 5min`, marshal, base64url-encode, and append the
dot-separated signature.  `t` is the value of `now()` at the call. -/
def Generate (env : StateEnv) (nonce : Bytes) (t : Int) (payload : StatePayload) : Str :=
  let p := { payload with nonce := hexEncode nonce, expiresAt := t + stateExpiry }
  let encoded := env.b64enc (env.marshal p)
  encoded ++ '.' :: env.sign encoded

/-- `state.Service.Validate`: split on the first dot, compare the
signature (Go `hmac.Equal` on the byte images of the two strings, which
is string equality), base64url-decode, unmarshal, and reject expired
payloads with the strict comparison `now().After(expires_at)`. -/
def Validate (env : StateEnv) (t : Int) (token : Str) : Except StateError StatePayload :=
  match splitOnce '.' token with
  | none => .error .malformed
  | some (encoded, sig) =>
    if sig = env.sign encoded then
      match env.b64dec encoded with
      | none => .error .malformed
      | some data =>
        match env.unmarshal data with
        | none => .error .malformed
        | some payload =>
          if t > payload.expiresAt then .error .expired else .ok payload
    else .error .invalid

end State

/-! ## Exchange codec (internal/exchange, src/unnamed/part_005) -/

/-- Errors returned by `exchange.Codec.Decode`. -/
inductive ExchangeError
  | invalid
  | expired
deriving DecidableEq

/-- Abstract bundle of the primitives the exchange codec uses: the
AES-GCM AEAD built by the constructor (`nonceSize`, `aeadSeal` for
`aead.Seal(nil, nonce, pt, nil)`, `aeadOpen` for `aead.Open(nil, nonce, ct,
nil)`), `json.Marshal`/`json.Unmarshal` for `ExchangePayload`, and
`base64.RawURLEncoding` over bytes. -/
structure ExchangeEnv where
  nonceSize : Nat
  aeadSeal : Bytes → Bytes → Bytes
  aeadOpen : Bytes → Bytes → Option Bytes
  marshal : ExchangePayload → Bytes
  unmarshal : Bytes → Option ExchangePayload
  b64enc : Bytes → Str
  b64dec : Str → Option Bytes

/-- The source's `defaultCodeExpiry = 30 * time.Second`, in seconds. -/
def codeExpiry : Int := 30

namespace Exchange

/-- `exchange.Codec.Encode`: set `expires_at = now() + 30s`, marshal,
draw a random nonce of the AEAD's nonce size (passed as `nonce`), seal
with the nonce as `Seal`'s destination (so the sealed output is
`nonce ++ ciphertext+tag`), and base64url-encode. -/
def Encode (env : ExchangeEnv) (nonce : Bytes) (t : Int) (payload : ExchangePayload) : Str :=
  let p := { payload with expiresAt := t + codeExpiry }
  let plaintext := env.marshal p
  env.b64enc (nonce ++ env.aeadSeal nonce plaintext)

/-- `exchange.Codec.Decode`: base64url-decode, reject short inputs,
split off the nonce, open the AEAD, unmarshal, and reject expired
payloads with the strict comparison `now().After(expires_at)`; every
failure other than expiry collapses to `invalid`. -/
def Decode (env : ExchangeEnv) (t : Int) (code : Str) : Except ExchangeError ExchangePayload :=
  match env.b64dec code with
  | none => .error .invalid
  | some raw =>
    if raw.length < env.nonceSize then .error .invalid
    else
      match env.aeadOpen (raw.take env.nonceSize) (raw.drop env.nonceSize) with
      | none => .error .invalid
      | some plaintext =>
        match env.unmarshal plaintext with
        | none => .error .invalid
        | some payload =>
          if t > payload.expiresAt then .error .expired else .ok payload

end Exchange

/-! ## Exchange codec constructor (NewCodec) -/

/-- Model of a `crypto/aes` block cipher: `aes.NewCipher` returns
`KeySizeError` for every key length other than 16, 24 or 32 bytes
(AES-128/192/256) and otherwise a cipher whose block size is 16 bytes.
Modelled from the documented contract of the Go standard library, which
the source's `NewCodec` calls. -/
structure AESBlock where
  key : Bytes
  blockSize : Nat
deriving DecidableEq

/-- Go `aes.NewCipher`. -/
def aesNewCipher (key : Bytes) : Option AESBlock :=
  if key.length = 16 ∨ key.length = 24 ∨ key.length = 32 then
    some ⟨key, 16⟩
  else none

/-- Go `cipher.NewGCM`: succeeds on any 128-bit block cipher, yielding
an AEAD over that cipher's key (the concrete AEAD operations are
abstract; `mkGCM` stands for the GCM instantiation at a given key). -/
def cipherNewGCM (mkGCM : Bytes → ExchangeEnv) (b : AESBlock) : Option ExchangeEnv :=
  if b.blockSize = 16 then some (mkGCM b.key) else none

/-- `exchange.NewCodec`: build the AES cipher, then wrap it in GCM;
either failure propagates as an error (modelled as `none`). -/
def Exchange.NewCodec (mkGCM : Bytes → ExchangeEnv) (key : Bytes) : Option ExchangeEnv :=
  match aesNewCipher key with
  | none => none
  | some block => cipherNewGCM mkGCM block

/-! ## Client registry (internal/client/registry.go) -/

/-- Errors returned by the client registry. -/
inductive ClientError
  | clientNotFound
  | invalidAPIKey
  | callbackNotAllowed
  | providerNotAllowed
deriving DecidableEq

/-- Go map from strings to clients, as an association list in insertion
order with at most one binding per key (`m[k] = v` overwrites in
place). -/
def mapInsert (m : List (Str × ClientApp)) (k : Str) (v : ClientApp) : List (Str × ClientApp) :=
  match m with
  | [] => [(k, v)]
  | (k', v') :: rest => if k' = k then (k, v) :: rest else (k', v') :: mapInsert rest k v

/-- Go map lookup `m[k]`. -/
def mapLookup (m : List (Str × ClientApp)) (k : Str) : Option ClientApp :=
  match m with
  | [] => none
  | (k', v') :: rest => if k' = k then some v' else mapLookup rest k

namespace Client

/-- The registry's two maps, `byID` and `byAPIKey`. -/
structure Registry where
  byID : List (Str × ClientApp)
  byAPIKey : List (Str × ClientApp)

/-- The loop body of `client.NewRegistry`: fail on a duplicate id,
otherwise insert into both maps. -/
def build (r : Registry) : List ClientApp → Option Registry
  | [] => some r
  | c :: cs =>
    if (mapLookup r.byID c.id).isSome then none
    else build ⟨mapInsert r.byID c.id c, mapInsert r.byAPIKey c.apiKey c⟩ cs

/-- `client.NewRegistry`: builds both maps from the client list,
failing with `duplicate-client-id` (modelled as `none`) when two
records share an id. -/
def NewRegistry (clients : List ClientApp) : Option Registry :=
  build ⟨[], []⟩ clients

/-- `client.Registry.Get`: map lookup by id. -/
def Get (r : Registry) (clientID : Str) : Option ClientApp :=
  mapLookup r.byID clientID

/-- `client.Registry.GetByAPIKey`: iterate the `byAPIKey` map comparing
each stored key to the presented one with `hmac.Equal` (equality on the
byte images, i.e. string equality).  A Go map holds one binding per
key, so the first — and only — binding with the matching key is
returned regardless of iteration order. -/
def GetByAPIKey (r : Registry) (apiKey : Str) : Option ClientApp :=
  (r.byAPIKey.find? (fun kv => kv.1 = apiKey)).map (fun kv => kv.2)

/-- `client.Registry.ValidateCallback`: look the client up, then exact
string comparison against the allowlist. -/
def ValidateCallback (r : Registry) (clientID callbackURI : Str) : Except ClientError Unit :=
  match Get r clientID with
  | none => .error .clientNotFound
  | some c => if callbackURI ∈ c.allowedCallbacks then .ok () else .error .callbackNotAllowed

/-- `client.Registry.ValidateProvider`: look the client up, then exact
string comparison against the allowed providers. -/
def ValidateProvider (r : Registry) (clientID provider : Str) : Except ClientError Unit :=
  match Get r clientID with
  | none => .error .clientNotFound
  | some c => if provider ∈ c.allowedProviders then .ok () else .error .providerNotAllowed

end Client

/-! ## Provider port and registry (internal/auth) -/

/-- Errors a provider's `Exchange` can return, as the handlers
distinguish them (`errors.Is` against the sentinel errors). -/
inductive ProviderError
  | missingParams
  | providerExchange
  | providerUserFetch
deriving DecidableEq

/-- A provider port: `Name`, `AuthURL` (which may fail, yielding the
handler's 500 branch) and `Exchange` over the flat query-parameter
map.  The network interaction inside `Exchange` is abstracted into the
function itself. -/
structure Provider where
  name : Str
  authURL : Str → Option Str
  exchange : List (Str × Str) → Except ProviderError UserInfo

namespace Auth

/-- The provider registry's map, name to provider; `auth.Registry.Get`
is map lookup. -/
def get (providers : List (Str × Provider)) (n : Str) : Option Provider :=
  (providers.find? (fun kv => kv.1 = n)).map (fun kv => kv.2)

end Auth

/-! ## HTTP responses -/

/-- The observable outcome of a handler: `writeError status msg`,
`http.Redirect` (302) or the 200 user JSON body of /exchange. -/
inductive Response
  | err (status : Nat) (msg : String)
  | redirect (location : Str)
  | okUser (user : UserInfo)
deriving DecidableEq

/-- The HTTP status code of a response. -/
def Response.status : Response → Nat
  | .err s _ => s
  | .redirect _ => 302
  | .okUser _ => 200

/-- Go `r.URL.Query().Get(k)`: first value for the key, empty string
when absent. -/
def getParam (q : List (Str × Str)) (k : Str) : Str :=
  match q.find? (fun kv => kv.1 = k) with
  | some kv => kv.2
  | none => []

namespace Handler

/-- The handler's `strings.TrimPrefix(authHeader, "Bearer ")` prefix. -/
def bearer : Str := "Bearer ".data

/-- `handler.Authorize` (GET /auth/{provider}): parameter presence
checks, client lookup, callback allowlist, provider lookup, provider
allowlist (403 exactly on `provider-not-allowed`), then state-token
issuance and 302 to the provider's authorize URL.  `rand` is the
16-byte nonce read from `crypto/rand`, `t` the value of `now()`. -/
def Authorize (clients : Client.Registry) (providers : List (Str × Provider))
    (senv : StateEnv) (rand : Bytes) (t : Int)
    (clientID redirectURI providerName : Str) : Response :=
  if clientID = [] then .err 400 "missing client_id parameter"
  else if redirectURI = [] then .err 400 "missing redirect_uri parameter"
  else if providerName = [] then .err 400 "missing provider"
  else
    match Client.Get clients clientID with
    | none => .err 400 "unknown client"
    | some _ =>
      match Client.ValidateCallback clients clientID redirectURI with
      | .error _ => .err 400 "redirect_uri not allowed"
      | .ok _ =>
        match Auth.get providers providerName with
        | none => .err 400 "unknown provider"
        | some provider =>
          match Client.ValidateProvider clients clientID providerName with
          | .error e =>
            if e = .providerNotAllowed then .err 403 "provider not allowed for this client"
            else .err 400 "unknown client"
          | .ok _ =>
            let stateToken := State.Generate senv rand t
              { clientID := clientID, provider := providerName,
                redirectURI := redirectURI, nonce := [], expiresAt := 0 }
            match provider.authURL stateToken with
            | none => .err 500 "failed to generate auth URL"
            | some u => .redirect u

/-- The tail of `handler.Callback` after the state token has been
validated: the verified payload is consulted only for its `ClientID`
and `RedirectURI` (exactly the two fields the source reads).
`buildRedirect` models `url.Parse` on the redirect URI plus appending
the `code` query parameter (`none` models a parse failure, the 500
branch); `nonce` and `tE` feed the exchange encoding. -/
def callbackTail (providers : List (Str × Provider)) (eenv : ExchangeEnv)
    (buildRedirect : Str → Str → Option Str) (nonce : Bytes) (tE : Int)
    (providerName : Str) (query : List (Str × Str))
    (stateClientID stateRedirectURI : Str) : Response :=
  match Auth.get providers providerName with
  | none => .err 400 "unknown provider"
  | some provider =>
    match provider.exchange query with
    | .error .missingParams => .err 400 "missing provider parameters"
    | .error _ => .err 502 "provider exchange failed"
    | .ok user =>
      let code := Exchange.Encode eenv nonce tE
        { clientID := stateClientID, expiresAt := 0, user := user }
      match buildRedirect stateRedirectURI code with
      | none => .err 500 "invalid redirect URI"
      | some u => .redirect u

/-- `handler.Callback` (GET /callback/{provider}): require `state`,
validate it (expired and invalid mapped to distinct 400 messages),
then continue with `callbackTail`.  The flat parameter map handed to
the provider is the query itself (first value per key). -/
def Callback (providers : List (Str × Provider)) (senv : StateEnv) (eenv : ExchangeEnv)
    (buildRedirect : Str → Str → Option Str) (nonce : Bytes) (tV tE : Int)
    (providerName : Str) (query : List (Str × Str)) : Response :=
  let stateToken := getParam query "state".data
  if stateToken = [] then .err 400 "missing state parameter"
  else
    match State.Validate senv tV stateToken with
    | .error .expired => .err 400 "state token expired"
    | .error _ => .err 400 "invalid state token"
    | .ok sp =>
      callbackTail providers eenv buildRedirect nonce tE providerName query
        sp.clientID sp.redirectURI

/-- `handler.Exchange` (GET /exchange): require `code`, strip the
`Bearer ` prefix from the Authorization header (401 when the result is
empty or the prefix was absent), decode the code (400, distinguishing
expiry), authenticate the API key (401), enforce the client binding
(403), and return the user. -/
def ExchangeEndpoint (clients : Client.Registry) (eenv : ExchangeEnv) (t : Int)
    (code authHeader : Str) : Response :=
  if code = [] then .err 400 "missing code parameter"
  else
    let apiKey := trimPre bearer authHeader
    if apiKey = [] ∨ apiKey = authHeader then
      .err 401 "missing or invalid Authorization header"
    else
      match Exchange.Decode eenv t code with
      | .error .expired => .err 400 "exchange code expired"
      | .error .invalid => .err 400 "invalid exchange code"
      | .ok payload =>
        match Client.GetByAPIKey clients apiKey with
        | none => .err 401 "invalid API key"
        | some clientApp =>
          if clientApp.id ≠ payload.clientID then
            .err 403 "API key does not match the client that initiated the auth flow"
          else .okUser payload.user

end Handler

/-! ## Steam provider (internal/providers/steam/steam.go) -/

namespace Steam

/-- A decimal digit, the regex class `\d`. -/
def isDigit (c : Char) : Bool := '0' ≤ c ∧ c ≤ '9'

/-- Tries to match `https?://steamcommunity\.com/openid/id/(\d+)` at
the head of the input, returning the captured digit run.  `https?`
resolves deterministically: after the optional `s` the pattern needs
`://`, and `s ≠ :`. -/
def patternAt (l : Str) : Option Str :=
  match l.dropPrefix? "http".data with
  | none => none
  | some r0 =>
    let r1 := match r0.dropPrefix? ['s'] with
      | some r => r
      | none => r0
    match r1.dropPrefix? "://steamcommunity.com/openid/id/".data with
    | none => none
    | some r2 =>
      let digits := r2.takeWhile isDigit
      if digits = [] then none else some digits

/-- Leftmost occurrence of the pattern anywhere in the input, as
`regexp.FindStringSubmatch` searches an unanchored pattern. -/
def findPattern : Str → Option Str
  | [] => none
  | c :: cs =>
    match patternAt (c :: cs) with
    | some d => some d
    | none => findPattern cs

/-- `steam.extractSteamID`: the capture group of the leftmost regex
match, failing (the `provider-exchange` error) when the pattern does
not occur. -/
def extractSteamID (claimedID : Str) : Option Str :=
  findPattern claimedID

/-- The outcome of the two network calls `Exchange` can make: whether
the `check_authentication` response body contains `is_valid:true`, and
the result of the GetPlayerSummaries fetch for a given SteamID
(`none` collapses every fetch failure). -/
structure Net where
  assertionValid : Bool
  summary : Str → Option UserInfo

/-- `steam.Provider.Exchange`, with an explicit flag recording whether
the player-summary fetch was performed: require a non-empty
`openid.claimed_id`, validate the assertion, extract the SteamID, then
fetch the player summary. -/
def exchangeRun (net : Net) (params : List (Str × Str)) : Except ProviderError UserInfo × Bool :=
  match params.find? (fun kv => kv.1 = "openid.claimed_id".data) with
  | none => (.error .missingParams, false)
  | some kv =>
    if kv.2 = [] then (.error .missingParams, false)
    else if net.assertionValid = false then (.error .providerExchange, false)
    else
      match extractSteamID kv.2 with
      | none => (.error .providerExchange, false)
      | some sid =>
        match net.summary sid with
        | none => (.error .providerUserFetch, true)
        | some u => (.ok u, true)

/-- The authority component of a URL as Go's `url.Parse` reads it for
inputs of the shape `scheme://host/...` without userinfo: everything
after the first `://` up to the next `/`, `?` or `#`. -/
def urlHost (l : Str) : Str :=
  (dropThroughSep l).takeWhile (fun c => ¬ (c = '/' ∨ c = '?' ∨ c = '#'))
where
  /-- Drops everything through the first occurrence of `://`. -/
  dropThroughSep : Str → Str
    | [] => []
    | c :: cs =>
      match (c :: cs).dropPrefix? "://".data with
      | some r => r
      | none => dropThroughSep cs

end Steam

/-! ## Supporting lemmas -/

theorem splitOnce_append {sep : Char} {l : Str} (r : Str) (h : sep ∉ l) :
    splitOnce sep (l ++ sep :: r) = some (l, r) := by
  induction l with
  | nil => simp [splitOnce]
  | cons c cs ih =>
    have h1 : c ≠ sep := fun hc => h (hc ▸ List.mem_cons_self c cs)
    have h2 : sep ∉ cs := fun hm => h (List.mem_cons_of_mem c hm)
    simp [splitOnce, h1, ih h2]

theorem isPrefixOf_append (pre k : Str) : pre.isPrefixOf (pre ++ k) = true := by
  induction pre with
  | nil => simp [List.isPrefixOf]
  | cons c cs ih => simp [List.isPrefixOf, ih]

theorem trimPre_append (pre k : Str) : trimPre pre (pre ++ k) = k := by
  simp [trimPre, isPrefixOf_append]

theorem ne_append_self {pre : Str} (k : Str) (h : pre ≠ []) : k ≠ pre ++ k := by
  intro he
  have hl := congrArg List.length he
  simp only [List.length_append] at hl
  have : pre.length = 0 := by omega
  exact h (List.length_eq_zero.mp this)

/-! ## C2 — Exchange codec round-trip -/

/-- C2: for every ExchangePayload `p` (its nested UserProfile included)
and every codec produced by the constructor, decoding the code produced
by `Encode p` at any time not after the embedded expiry succeeds and
yields a payload with `client_id` and `user` unchanged and
`expires_at` equal to the encode-time clock plus 30 seconds.  The
hypotheses state, at the values actually encoded, the round-trip
contracts of the Go primitives the codec calls: AES-GCM `Open` inverts
`Seal` under the same key and nonce, `json.Unmarshal` inverts
`json.Marshal`, base64url decoding inverts encoding, and the random
nonce has the AEAD's nonce size. -/
theorem exchange_codec_roundtrip (env : ExchangeEnv) (nonce : Bytes) (t tD : Int)
    (p : ExchangePayload)
    (hopen : env.aeadOpen nonce
      (env.aeadSeal nonce (env.marshal { p with expiresAt := t + codeExpiry })) =
      some (env.marshal { p with expiresAt := t + codeExpiry }))
    (hjson : env.unmarshal (env.marshal { p with expiresAt := t + codeExpiry }) =
      some { p with expiresAt := t + codeExpiry })
    (hb64 : env.b64dec (env.b64enc
        (nonce ++ env.aeadSeal nonce (env.marshal { p with expiresAt := t + codeExpiry }))) =
      some (nonce ++ env.aeadSeal nonce (env.marshal { p with expiresAt := t + codeExpiry })))
    (hn : nonce.length = env.nonceSize)
    (hT : tD ≤ t + codeExpiry) :
    ∃ q, Exchange.Decode env tD (Exchange.Encode env nonce t p) = .ok q ∧
      q.clientID = p.clientID ∧ q.user = p.user ∧ q.expiresAt = t + codeExpiry := by
  refine ⟨{ p with expiresAt := t + codeExpiry }, ?_, rfl, rfl, rfl⟩
  have hlen : ¬ (nonce ++ env.aeadSeal nonce
      (env.marshal { p with expiresAt := t + codeExpiry })).length < env.nonceSize := by
    simp only [List.length_append]
    omega
  have htake : (nonce ++ env.aeadSeal nonce
      (env.marshal { p with expiresAt := t + codeExpiry })).take env.nonceSize = nonce := by
    rw [← hn, List.take_left]
  have hdrop : (nonce ++ env.aeadSeal nonce
      (env.marshal { p with expiresAt := t + codeExpiry })).drop env.nonceSize =
      env.aeadSeal nonce (env.marshal { p with expiresAt := t + codeExpiry }) := by
    rw [← hn, List.drop_left]
  simp only [Exchange.Encode, Exchange.Decode]
  rw [hb64]
  simp only [hlen, if_false]
  rw [htake, hdrop, hopen]
  simp only [hjson]
  exact if_neg (not_lt.mpr hT)

/-- Concrete codec environment for the C2 witness: a zero-size-nonce
AEAD whose sealing is the identity, with trivial serialization. -/
def c2Env : ExchangeEnv where
  nonceSize := 0
  aeadSeal := fun _ pt => pt
  aeadOpen := fun _ ct => some ct
  marshal := fun _ => [7]
  unmarshal := fun _ => some
    { clientID := "website".data, expiresAt := 30,
      user := { providerName := "discord".data, providerID := "9".data,
                username := "u".data, displayName := "d".data,
                avatarURL := "a".data, email := "e".data } }
  b64enc := fun _ => ['x']
  b64dec := fun _ => some [7]

/-- Witness for C2 at a concrete payload, nonce and clock. -/
theorem exchange_codec_roundtrip_witness :
    ∃ q, Exchange.Decode c2Env 30
        (Exchange.Encode c2Env [] 0
          { clientID := "website".data, expiresAt := 0,
            user := { providerName := "discord".data, providerID := "9".data,
                      username := "u".data, displayName := "d".data,
                      avatarURL := "a".data, email := "e".data } }) = .ok q ∧
      q.clientID = "website".data ∧
      q.user = { providerName := "discord".data, providerID := "9".data,
                 username := "u".data, displayName := "d".data,
                 avatarURL := "a".data, email := "e".data } ∧
      q.expiresAt = 0 + codeExpiry :=
  exchange_codec_roundtrip c2Env [] 0 30 _ (by decide) (by decide) (by decide) (by decide)
    (by decide)

/-! ## C3 — State codec round-trip -/

/-- C3: for every StatePayload `p` and signing key, validating the
token generated from `p` before its expiry succeeds and returns a
payload equal to `p` on `client_id`, `provider` and `redirect_uri`,
with `nonce` newly populated as the hex encoding of the 16 fresh
random bytes (whatever nonce `p` carried) and `expires_at` equal to
the generation-time clock plus 5 minutes, hence in the future.  The
hypotheses state, at the values actually signed, that base64url
decoding inverts encoding, that `json.Unmarshal` inverts
`json.Marshal`, that the base64url alphabet excludes the dot
separator, and that `crypto/rand.Read` filled exactly 16 bytes. -/
theorem state_codec_roundtrip (env : StateEnv) (nonce : Bytes) (t tV : Int) (p : StatePayload)
    (_hlen : nonce.length = stateNonceBytes)
    (hdot : '.' ∉ env.b64enc (env.marshal
      { p with nonce := hexEncode nonce, expiresAt := t + stateExpiry }))
    (hb64 : env.b64dec (env.b64enc (env.marshal
        { p with nonce := hexEncode nonce, expiresAt := t + stateExpiry })) =
      some (env.marshal { p with nonce := hexEncode nonce, expiresAt := t + stateExpiry }))
    (hjson : env.unmarshal (env.marshal
        { p with nonce := hexEncode nonce, expiresAt := t + stateExpiry }) =
      some { p with nonce := hexEncode nonce, expiresAt := t + stateExpiry })
    (hT : tV ≤ t + stateExpiry) :
    ∃ q, State.Validate env tV (State.Generate env nonce t p) = .ok q ∧
      q.clientID = p.clientID ∧ q.provider = p.provider ∧ q.redirectURI = p.redirectURI ∧
      q.nonce = hexEncode nonce ∧ q.expiresAt = t + stateExpiry ∧ t < q.expiresAt := by
  refine ⟨{ p with nonce := hexEncode nonce, expiresAt := t + stateExpiry },
    ?_, rfl, rfl, rfl, rfl, rfl, ?_⟩
  · simp only [State.Generate, State.Validate]
    rw [splitOnce_append _ hdot]
    simp only [if_pos rfl]
    rw [hb64]
    simp only [hjson]
    exact if_neg (not_lt.mpr hT)
  · show t < t + stateExpiry
    have h0 : (0 : Int) < stateExpiry := by norm_num [stateExpiry]
    omega

/-- Concrete state environment for the C3 witness. -/
def c3Env : StateEnv where
  marshal := fun _ => [3]
  unmarshal := fun _ => some
    { clientID := "website".data, provider := "discord".data,
      redirectURI := "https://example.com/cb".data,
      nonce := hexEncode (List.range 16), expiresAt := 300 }
  b64enc := fun _ => ['x']
  b64dec := fun _ => some [3]
  sign := fun _ => ['s']

/-- Witness for C3 at a concrete payload, nonce and clock. -/
theorem state_codec_roundtrip_witness :
    ∃ q, State.Validate c3Env 300
        (State.Generate c3Env (List.range 16) 0
          { clientID := "website".data, provider := "discord".data,
            redirectURI := "https://example.com/cb".data, nonce := [], expiresAt := 0 }) =
        .ok q ∧
      q.clientID = "website".data ∧ q.provider = "discord".data ∧
      q.redirectURI = "https://example.com/cb".data ∧
      q.nonce = hexEncode (List.range 16) ∧ q.expiresAt = 0 + stateExpiry ∧
      (0 : Int) < q.expiresAt :=
  state_codec_roundtrip c3Env (List.range 16) 0 300 _ (by decide) (by decide) (by decide)
    (by decide) (by norm_num [stateExpiry])

/-! ## C4 — Strict expiry rejection in both codecs -/

/-- C4: for an otherwise valid state token (the token splits, the
signature matches, and the payload decodes and parses) `Validate`
returns `state-expired` exactly when `now() > expires_at`, and for an
otherwise valid exchange code `Decode` returns
`exchange-code-expired` exactly when `now() > expires_at`; when
`now()` does not exceed `expires_at` — in particular at equality —
the payload is accepted. -/
theorem expiry_rejection_strict
    (senv : StateEnv) (tS : Int) (token enc sig : Str) (sdata : Bytes) (sp : StatePayload)
    (hsplit : splitOnce '.' token = some (enc, sig))
    (hsig : sig = senv.sign enc)
    (hsdec : senv.b64dec enc = some sdata)
    (hsjson : senv.unmarshal sdata = some sp)
    (eenv : ExchangeEnv) (tE : Int) (code : Str) (raw pt : Bytes) (ep : ExchangePayload)
    (heb : eenv.b64dec code = some raw)
    (helen : ¬ raw.length < eenv.nonceSize)
    (hopen : eenv.aeadOpen (raw.take eenv.nonceSize) (raw.drop eenv.nonceSize) = some pt)
    (hejson : eenv.unmarshal pt = some ep) :
    (State.Validate senv tS token = .error .expired ↔ tS > sp.expiresAt) ∧
    (¬ tS > sp.expiresAt → State.Validate senv tS token = .ok sp) ∧
    (Exchange.Decode eenv tE code = .error .expired ↔ tE > ep.expiresAt) ∧
    (¬ tE > ep.expiresAt → Exchange.Decode eenv tE code = .ok ep) := by
  have hv : State.Validate senv tS token =
      if tS > sp.expiresAt then .error .expired else .ok sp := by
    simp only [State.Validate]
    rw [hsplit]
    simp only [hsig, eq_self_iff_true, if_true]
    rw [hsdec]
    simp only [hsjson]
  have hd : Exchange.Decode eenv tE code =
      if tE > ep.expiresAt then .error .expired else .ok ep := by
    simp only [Exchange.Decode]
    rw [heb]
    simp only [helen, if_false]
    rw [hopen]
    simp only [hejson]
  refine ⟨?_, ?_, ?_, ?_⟩
  · rw [hv]
    by_cases h : tS > sp.expiresAt <;> simp [h]
  · intro h
    rw [hv, if_neg h]
  · rw [hd]
    by_cases h : tE > ep.expiresAt <;> simp [h]
  · intro h
    rw [hd, if_neg h]

/-- The state payload recovered in the C4 witness. -/
def c4StatePayload : StatePayload :=
  { clientID := "website".data, provider := "discord".data,
    redirectURI := "https://example.com/cb".data, nonce := "00".data, expiresAt := 100 }

/-- The exchange payload recovered in the C4 witness. -/
def c4ExchangePayload : ExchangePayload :=
  { clientID := "website".data, expiresAt := 100,
    user := { providerName := "discord".data, providerID := "9".data,
              username := "u".data, displayName := "d".data,
              avatarURL := "a".data, email := [] } }

/-- Concrete state environment for the C4 witness. -/
def c4SEnv : StateEnv where
  marshal := fun _ => []
  unmarshal := fun _ => some c4StatePayload
  b64enc := fun _ => []
  b64dec := fun _ => some [1]
  sign := fun _ => ['g']

/-- Concrete exchange environment for the C4 witness. -/
def c4EEnv : ExchangeEnv where
  nonceSize := 0
  aeadSeal := fun _ pt => pt
  aeadOpen := fun _ _ => some []
  marshal := fun _ => []
  unmarshal := fun _ => some c4ExchangePayload
  b64enc := fun _ => []
  b64dec := fun _ => some []

/-- Witness for C4: at a clock exactly equal to the embedded expiry,
both codecs still accept. -/
theorem expiry_rejection_strict_witness :
    State.Validate c4SEnv 100 "e.g".data = .ok c4StatePayload ∧
    Exchange.Decode c4EEnv 100 ['c'] = .ok c4ExchangePayload := by
  have h := expiry_rejection_strict c4SEnv 100 "e.g".data "e".data "g".data [1]
    c4StatePayload (by decide) rfl rfl rfl c4EEnv 100 ['c'] [] [] c4ExchangePayload
    rfl (by decide) rfl rfl
  exact ⟨h.2.1 (by decide), h.2.2.2 (by decide)⟩

/-! ## Shared concrete clients for witnesses (the spec's S1/S2 fixtures) -/

/-- The `website` client of the spec's end-to-end scenarios. -/
def demoWebsite : ClientApp :=
  { id := "website".data, name := "Website".data, apiKey := "web-api-key-secret".data,
    allowedCallbacks := ["https://example.com/auth/callback".data],
    allowedProviders := ["discord".data, "steam".data] }

/-- The `admin` client of the spec's end-to-end scenarios; it allows
only `discord`. -/
def demoAdmin : ClientApp :=
  { id := "admin".data, name := "Admin Panel".data, apiKey := "admin-api-key-secret".data,
    allowedCallbacks := ["https://admin.example.com/callback".data],
    allowedProviders := ["discord".data] }

/-- The registry built from the two demo clients, as `NewRegistry`
produces it. -/
def demoRegistry : Client.Registry :=
  { byID := [("website".data, demoWebsite), ("admin".data, demoAdmin)],
    byAPIKey := [("web-api-key-secret".data, demoWebsite),
                 ("admin-api-key-secret".data, demoAdmin)] }

/-! ## C1 — Cross-client redemption rejected at GET /exchange -/

/-- C1: when the presented Bearer API key belongs to a registered
client whose id differs from the decoded payload's `client_id`, the
exchange endpoint answers 403 and never the 200 user body; the 200
body is produced exactly when the authenticated client's id equals the
payload's `client_id` (and then it carries the payload's user). -/
theorem exchange_cross_client_rejected
    (clients : Client.Registry) (eenv : ExchangeEnv) (t : Int) (code key : Str)
    (payload : ExchangePayload) (c : ClientApp)
    (hcode : code ≠ [])
    (hkey : key ≠ [])
    (hdec : Exchange.Decode eenv t code = .ok payload)
    (hlookup : Client.GetByAPIKey clients key = some c) :
    (c.id ≠ payload.clientID →
      Handler.ExchangeEndpoint clients eenv t code (Handler.bearer ++ key) =
        .err 403 "API key does not match the client that initiated the auth flow") ∧
    (∀ u, Handler.ExchangeEndpoint clients eenv t code (Handler.bearer ++ key) = .okUser u ↔
      (c.id = payload.clientID ∧ u = payload.user)) := by
  have hne : key ≠ Handler.bearer ++ key := ne_append_self key (by decide)
  have hrun : Handler.ExchangeEndpoint clients eenv t code (Handler.bearer ++ key) =
      if c.id ≠ payload.clientID then
        .err 403 "API key does not match the client that initiated the auth flow"
      else .okUser payload.user := by
    simp only [Handler.ExchangeEndpoint, trimPre_append]
    rw [if_neg hcode, if_neg (by push_neg; exact ⟨hkey, hne⟩)]
    simp only [hdec, hlookup]
  refine ⟨fun hmm => by rw [hrun, if_pos hmm], fun u => ?_⟩
  rw [hrun]
  by_cases hid : c.id = payload.clientID
  · simp [hid, eq_comm]
  · simp [hid]

/-- Concrete codec environment for the C1 witness: decoding yields a
payload bound to client `website`. -/
def c1Env : ExchangeEnv where
  nonceSize := 0
  aeadSeal := fun _ pt => pt
  aeadOpen := fun _ _ => some []
  marshal := fun _ => []
  unmarshal := fun _ => some
    { clientID := "website".data, expiresAt := 100,
      user := { providerName := "discord".data, providerID := "987654321".data,
                username := "tactical".data, displayName := "Tactical Commander".data,
                avatarURL := "https://cdn.example/a.png".data,
                email := "tactical@example.com".data } }
  b64enc := fun _ => []
  b64dec := fun _ => some []

/-- Witness for C1: redeeming a `website` code with the `admin` API key
is a 403, as in scenario S2. -/
theorem exchange_cross_client_rejected_witness :
    Handler.ExchangeEndpoint demoRegistry c1Env 0 ['c']
      (Handler.bearer ++ "admin-api-key-secret".data) =
      .err 403 "API key does not match the client that initiated the auth flow" :=
  (exchange_cross_client_rejected demoRegistry c1Env 0 ['c'] "admin-api-key-secret".data
    _ demoAdmin (by decide) (by decide) rfl (by decide)).1 (by decide)

/-! ## C7 — The code is decoded before the API key is authenticated -/

/-- C7: for a request carrying a non-empty code and a well-formed
Bearer header whose key matches no registered client, the decode step
runs first: an invalid or expired code yields 400 (with the expiry
message distinguished), and only a successfully decoded code reaches
the 401 for the unknown key. -/
theorem exchange_decode_before_key_auth
    (clients : Client.Registry) (eenv : ExchangeEnv) (t : Int) (code key : Str)
    (hcode : code ≠ []) (hkey : key ≠ [])
    (hnone : Client.GetByAPIKey clients key = none) :
    (∀ e, Exchange.Decode eenv t code = .error e →
      Handler.ExchangeEndpoint clients eenv t code (Handler.bearer ++ key) =
        .err 400 (if e = .expired then "exchange code expired" else "invalid exchange code")) ∧
    (∀ p, Exchange.Decode eenv t code = .ok p →
      Handler.ExchangeEndpoint clients eenv t code (Handler.bearer ++ key) =
        .err 401 "invalid API key") := by
  have hne : key ≠ Handler.bearer ++ key := ne_append_self key (by decide)
  constructor
  · intro e he
    simp only [Handler.ExchangeEndpoint, trimPre_append]
    rw [if_neg hcode, if_neg (by push_neg; exact ⟨hkey, hne⟩)]
    simp only [he]
    cases e <;> simp
  · intro p hp
    simp only [Handler.ExchangeEndpoint, trimPre_append]
    rw [if_neg hcode, if_neg (by push_neg; exact ⟨hkey, hne⟩)]
    simp only [hp, hnone]

/-- Concrete codec environment for the C7 witness: the code decodes to
a valid unexpired payload. -/
def c7Env : ExchangeEnv where
  nonceSize := 0
  aeadSeal := fun _ pt => pt
  aeadOpen := fun _ _ => some []
  marshal := fun _ => []
  unmarshal := fun _ => some
    { clientID := "website".data, expiresAt := 100,
      user := { providerName := "discord".data, providerID := "9".data,
                username := "u".data, displayName := "d".data,
                avatarURL := "a".data, email := [] } }
  b64enc := fun _ => []
  b64dec := fun _ => some []

/-- Witness for C7: an unregistered key presented with a valid code
reaches the 401, showing the decode ran and succeeded first. -/
theorem exchange_decode_before_key_auth_witness :
    Handler.ExchangeEndpoint demoRegistry c7Env 0 ['c']
      (Handler.bearer ++ "nope".data) = .err 401 "invalid API key" :=
  (exchange_decode_before_key_auth demoRegistry c7Env 0 ['c'] "nope".data
    (by decide) (by decide) (by decide)).2 _ rfl

/-! ## C6 — Authorize check ordering -/

/-- C6: a request that passes the parameter-presence guards gets a 403
from GET /auth/{provider} exactly when the client exists, the
redirect_uri is on its allowlist, the provider is registered, and the
provider is absent from the client's allowed providers; and whenever
the named provider is unregistered (the client existing and the
callback allowed), the answer is 400 "unknown provider" — also when
that provider is missing from the client's allowlist, so
unknown-provider takes precedence over provider-not-allowed. -/
theorem authorize_403_iff
    (clients : Client.Registry) (providers : List (Str × Provider))
    (senv : StateEnv) (rand : Bytes) (t : Int)
    (clientID redirectURI providerName : Str)
    (h1 : clientID ≠ []) (h2 : redirectURI ≠ []) (h3 : providerName ≠ []) :
    ((Handler.Authorize clients providers senv rand t clientID redirectURI providerName).status
        = 403 ↔
      ∃ c, Client.Get clients clientID = some c ∧ redirectURI ∈ c.allowedCallbacks ∧
        (Auth.get providers providerName).isSome = true ∧
        providerName ∉ c.allowedProviders) ∧
    (∀ c, Client.Get clients clientID = some c → redirectURI ∈ c.allowedCallbacks →
      Auth.get providers providerName = none →
      Handler.Authorize clients providers senv rand t clientID redirectURI providerName =
        .err 400 "unknown provider") := by
  simp only [Handler.Authorize, Client.ValidateCallback, Client.ValidateProvider,
    if_neg h1, if_neg h2, if_neg h3]
  cases hget : Client.Get clients clientID with
  | none =>
    refine ⟨by simp [Response.status], fun c hc => by simp at hc⟩
  | some c =>
    by_cases hcb : redirectURI ∈ c.allowedCallbacks
    · cases hprov : Auth.get providers providerName with
      | none =>
        refine ⟨by simp [Response.status, hcb], fun c' hc' _ _ => by simp [hcb]⟩
      | some prov =>
        by_cases hp : providerName ∈ c.allowedProviders
        · cases hurl : prov.authURL (State.Generate senv rand t
            { clientID := clientID, provider := providerName,
              redirectURI := redirectURI, nonce := [], expiresAt := 0 }) with
          | none =>
            refine ⟨?_, fun c' hc' _ hn => by exact Option.noConfusion hn⟩
            simp only [hcb, if_pos, hp, hurl]
            simp [Response.status, hp]
          | some u =>
            refine ⟨?_, fun c' hc' _ hn => by exact Option.noConfusion hn⟩
            simp only [hcb, if_pos, hp, hurl]
            simp [Response.status, hp]
        · refine ⟨?_, fun c' hc' _ hn => by exact Option.noConfusion hn⟩
          simp only [hcb, if_pos, hp, if_neg]
          simp only [Response.status]
          constructor
          · intro _
            exact ⟨c, rfl, hcb, rfl, hp⟩
          · intro _
            rfl
    · refine ⟨by simp [Response.status, hcb], fun c' hc' hm _ => ?_⟩
      rw [Option.some_inj] at hc'
      subst hc'
      exact absurd hm hcb

/-- A registered discord provider port for witnesses. -/
def demoDiscordPort : Provider :=
  { name := "discord".data,
    authURL := fun _ => some "https://discord.example/authorize".data,
    exchange := fun _ => .error .providerExchange }

/-- A registered steam provider port for witnesses. -/
def demoSteamPort : Provider :=
  { name := "steam".data,
    authURL := fun _ => some "https://steamcommunity.example/login".data,
    exchange := fun _ => .error .providerExchange }

/-- A provider registry holding discord and steam. -/
def demoProviders : List (Str × Provider) :=
  [("discord".data, demoDiscordPort), ("steam".data, demoSteamPort)]

/-- A state environment for witnesses that never validates anything. -/
def c6SEnv : StateEnv where
  marshal := fun _ => []
  unmarshal := fun _ => none
  b64enc := fun _ => []
  b64dec := fun _ => none
  sign := fun _ => []

/-- Witness for C6: scenario S4 — client `admin` allows only discord,
so requesting steam (registered, callback allowed) is a 403. -/
theorem authorize_403_iff_witness :
    (Handler.Authorize demoRegistry demoProviders c6SEnv [] 0 "admin".data
      "https://admin.example.com/callback".data "steam".data).status = 403 :=
  (authorize_403_iff demoRegistry demoProviders c6SEnv [] 0 "admin".data
    "https://admin.example.com/callback".data "steam".data
    (by decide) (by decide) (by decide)).1.mpr
    ⟨demoAdmin, by decide, by decide, by decide, by decide⟩

/-! ## C9 — Callback accepts a provider mismatch -/

/-- C9: at GET /callback/{provider}, a state token that verifies but
whose embedded `provider` differs from the path segment is not
rejected for the mismatch: the handler continues with the path
provider, consulting the verified payload only for its `client_id`
and `redirect_uri` (the `callbackTail` continuation), and the 400
"unknown provider" answer arises exactly when the path provider is
unregistered — never from disagreement with `state.provider`. -/
theorem callback_accepts_provider_mismatch
    (providers : List (Str × Provider)) (senv : StateEnv) (eenv : ExchangeEnv)
    (buildRedirect : Str → Str → Option Str) (nonce : Bytes) (tV tE : Int)
    (providerName : Str) (query : List (Str × Str)) (sp : StatePayload)
    (hstate : getParam query "state".data ≠ [])
    (hvalid : State.Validate senv tV (getParam query "state".data) = .ok sp)
    (_hmismatch : sp.provider ≠ providerName) :
    Handler.Callback providers senv eenv buildRedirect nonce tV tE providerName query =
      Handler.callbackTail providers eenv buildRedirect nonce tE providerName query
        sp.clientID sp.redirectURI ∧
    (Handler.Callback providers senv eenv buildRedirect nonce tV tE providerName query =
        .err 400 "unknown provider" ↔ Auth.get providers providerName = none) := by
  have hrun : Handler.Callback providers senv eenv buildRedirect nonce tV tE providerName query =
      Handler.callbackTail providers eenv buildRedirect nonce tE providerName query
        sp.clientID sp.redirectURI := by
    simp only [Handler.Callback]
    rw [if_neg hstate]
    simp only [hvalid]
  refine ⟨hrun, ?_⟩
  rw [hrun]
  constructor
  · intro habs
    by_contra hne
    obtain ⟨prov, hprov⟩ := Option.ne_none_iff_exists'.mp hne
    simp only [Handler.callbackTail, hprov] at habs
    cases hex : prov.exchange query with
    | error e =>
      cases e <;> simp [hex] at habs
    | ok u =>
      cases hbr : buildRedirect sp.redirectURI
          (Exchange.Encode eenv nonce tE
            { clientID := sp.clientID, expiresAt := 0, user := u }) <;>
        simp [hex, hbr] at habs
  · intro hn
    simp only [Handler.callbackTail, hn]

/-- The state payload recovered in the C9 witness: issued for provider
`steam`, presented on the `discord` callback path. -/
def c9State : StatePayload :=
  { clientID := "website".data, provider := "steam".data,
    redirectURI := "https://example.com/auth/callback".data,
    nonce := "00".data, expiresAt := 100 }

/-- Concrete state environment for the C9 witness. -/
def c9SEnv : StateEnv where
  marshal := fun _ => []
  unmarshal := fun _ => some c9State
  b64enc := fun _ => []
  b64dec := fun _ => some [1]
  sign := fun _ => ['g']

/-- Concrete exchange environment for the C9 witness. -/
def c9EEnv : ExchangeEnv where
  nonceSize := 0
  aeadSeal := fun _ pt => pt
  aeadOpen := fun _ _ => some []
  marshal := fun _ => []
  unmarshal := fun _ => none
  b64enc := fun _ => []
  b64dec := fun _ => none

/-- Witness for C9: with a verified state naming `steam` on the
`discord` path, the handler proceeds to the tail continuation. -/
theorem callback_accepts_provider_mismatch_witness :
    Handler.Callback demoProviders c9SEnv c9EEnv (fun _ _ => none) [] 0 0 "discord".data
      [("state".data, "e.g".data)] =
      Handler.callbackTail demoProviders c9EEnv (fun _ _ => none) [] 0 "discord".data
        [("state".data, "e.g".data)] "website".data
        "https://example.com/auth/callback".data :=
  (callback_accepts_provider_mismatch demoProviders c9SEnv c9EEnv (fun _ _ => none) [] 0 0
    "discord".data [("state".data, "e.g".data)] c9State
    (by decide) rfl (by decide)).1

/-! ## C5 — NewCodec key-length precondition -/

/-- A GCM instantiation placeholder for the C5 statements. -/
def c5GCM : Bytes → ExchangeEnv := fun _ =>
  { nonceSize := 12, aeadSeal := fun _ pt => pt, aeadOpen := fun _ _ => none,
    marshal := fun _ => [], unmarshal := fun _ => none,
    b64enc := fun _ => [], b64dec := fun _ => none }

/-- C5 counterexample: a 16-byte key — whose length is not 32 — is
accepted by `NewCodec`, because `aes.NewCipher` admits AES-128 and
AES-192 keys as well; the codec it returns is usable. -/
theorem newCodec_accepts_16_byte_key :
    (List.replicate 16 (0 : Nat)).length ≠ 32 ∧
    Exchange.NewCodec c5GCM (List.replicate 16 0) = some (c5GCM (List.replicate 16 0)) :=
  ⟨by decide, rfl⟩

/-- C5 amended: `NewCodec` fails exactly for keys whose length is not
16, 24 or 32 bytes (the lengths `aes.NewCipher` accepts); the strict
exactly-32-byte check lives in the entry point, not in the
constructor. -/
theorem newCodec_fails_iff_bad_aes_length (key : Bytes) :
    Exchange.NewCodec c5GCM key = none ↔
      ¬ (key.length = 16 ∨ key.length = 24 ∨ key.length = 32) := by
  by_cases h : key.length = 16 ∨ key.length = 24 ∨ key.length = 32
  · simp [Exchange.NewCodec, aesNewCipher, cipherNewGCM, h]
  · simp [Exchange.NewCodec, aesNewCipher, h]

/-! ## C8 — Steam claimed_id host restriction -/

/-- A user profile returned by the modelled player-summary fetch in the
C8 statements. -/
def c8User : UserInfo :=
  { providerName := "steam".data, providerID := "42".data,
    username := "GamerTag".data, displayName := "GamerTag".data,
    avatarURL := "https://avatars.example/full.jpg".data, email := [] }

/-- The network oracle for the C8 statements: the OpenID assertion
checks out and the summary fetch succeeds. -/
def c8Net : Steam.Net :=
  { assertionValid := true, summary := fun _ => some c8User }

/-- C8 counterexample: a claimed_id whose URL host is `evil.com` but
which embeds `https://steamcommunity.com/openid/id/42` in its query
string passes extraction — the regex is unanchored — so `Exchange`
performs the player-summary fetch and succeeds instead of failing with
provider-exchange. -/
theorem steam_foreign_host_accepted :
    Steam.urlHost "https://evil.com/a?u=https://steamcommunity.com/openid/id/42".data =
      "evil.com".data ∧
    Steam.extractSteamID "https://evil.com/a?u=https://steamcommunity.com/openid/id/42".data =
      some "42".data ∧
    Steam.exchangeRun c8Net
      [("openid.claimed_id".data,
        "https://evil.com/a?u=https://steamcommunity.com/openid/id/42".data)] =
      (.ok c8User, true) :=
  ⟨by decide, by decide, rfl⟩

theorem findPattern_cons_none_iff (c : Char) (cs : Str) :
    Steam.findPattern (c :: cs) = none ↔
      Steam.patternAt (c :: cs) = none ∧ Steam.findPattern cs = none := by
  cases hp : Steam.patternAt (c :: cs) <;> simp [Steam.findPattern, hp]

theorem findPattern_none_iff (l : Str) :
    Steam.findPattern l = none ↔ ∀ i, Steam.patternAt (l.drop i) = none := by
  induction l with
  | nil =>
    constructor
    · intro _ i
      rw [List.drop_nil]
      decide
    · intro _
      rfl
  | cons c cs ih =>
    rw [findPattern_cons_none_iff, ih]
    constructor
    · intro ⟨h0, hrest⟩ i
      cases i with
      | zero => exact h0
      | succ j => exact hrest j
    · intro h
      exact ⟨h 0, fun j => h (j + 1)⟩

/-- C8 amended: SteamID extraction is decided by an unanchored
substring search — it fails exactly when the pattern
`https?://steamcommunity.com/openid/id/(digits)` occurs at no position
of the claimed_id (so a claimed_id on another host that embeds the
pattern is accepted).  When extraction fails, Exchange fails with
provider-exchange and no player-summary fetch is performed; when it
succeeds, the fetch is performed. -/
theorem steam_claimed_id_pattern_search
    (net : Steam.Net) (params : List (Str × Str)) (kv : Str × Str)
    (hfind : params.find? (fun p => p.1 = "openid.claimed_id".data) = some kv)
    (hne : kv.2 ≠ [])
    (hassert : net.assertionValid = true) :
    (Steam.extractSteamID kv.2 = none ↔ ∀ i, Steam.patternAt (kv.2.drop i) = none) ∧
    (Steam.extractSteamID kv.2 = none →
      Steam.exchangeRun net params = (.error .providerExchange, false)) ∧
    (∀ sid, Steam.extractSteamID kv.2 = some sid →
      (Steam.exchangeRun net params).2 = true) := by
  refine ⟨findPattern_none_iff kv.2, ?_, ?_⟩
  · intro hnone
    simp only [Steam.exchangeRun, hfind, hassert]
    rw [if_neg hne]
    simp [hnone]
  · intro sid hsid
    simp only [Steam.exchangeRun, hfind, hassert]
    rw [if_neg hne]
    simp only [hsid]
    cases net.summary sid <;> simp

/-- Witness for C8's amended statement: the repo's own test claimed_id
`https://evil.com/openid/id/12345` contains no occurrence of the
pattern, so Exchange fails with provider-exchange without a fetch. -/
theorem steam_claimed_id_pattern_search_witness :
    Steam.exchangeRun c8Net
      [("openid.claimed_id".data, "https://evil.com/openid/id/12345".data)] =
      (.error .providerExchange, false) :=
  (steam_claimed_id_pattern_search c8Net
    [("openid.claimed_id".data, "https://evil.com/openid/id/12345".data)]
    ("openid.claimed_id".data, "https://evil.com/openid/id/12345".data)
    (by decide) (by decide) rfl).2.1 (by decide)

/-! ## C10 — Duplicate API keys: the later record wins -/

theorem mapLookup_insert_self (m : List (Str × ClientApp)) (k : Str) (v : ClientApp) :
    mapLookup (mapInsert m k v) k = some v := by
  induction m with
  | nil => simp [mapInsert, mapLookup]
  | cons kv rest ih =>
    obtain ⟨k', v'⟩ := kv
    by_cases h : k' = k
    · simp [mapInsert, h, mapLookup]
    · simp [mapInsert, h, mapLookup, ih]

theorem mapLookup_insert_other (m : List (Str × ClientApp)) (k k2 : Str) (v : ClientApp)
    (h : k ≠ k2) : mapLookup (mapInsert m k v) k2 = mapLookup m k2 := by
  induction m with
  | nil => simp [mapInsert, mapLookup, h]
  | cons kv rest ih =>
    obtain ⟨k', v'⟩ := kv
    by_cases hk : k' = k
    · subst hk
      simp [mapInsert, mapLookup, h]
    · simp [mapInsert, hk, mapLookup, ih]

theorem findKey_eq_mapLookup (m : List (Str × ClientApp)) (k : Str) :
    (m.find? (fun kv => kv.1 = k)).map (fun kv => kv.2) = mapLookup m k := by
  induction m with
  | nil => rfl
  | cons kv rest ih =>
    obtain ⟨k', v'⟩ := kv
    by_cases h : k' = k
    · simp [List.find?_cons, h, mapLookup]
    · simp [List.find?_cons, h, mapLookup, ih]

theorem getByAPIKey_eq_mapLookup (r : Client.Registry) (k : Str) :
    Client.GetByAPIKey r k = mapLookup r.byAPIKey k :=
  findKey_eq_mapLookup r.byAPIKey k

theorem find?_append_cases {α : Type _} (l₁ l₂ : List α) (p : α → Bool) :
    (l₁ ++ l₂).find? p =
      match l₁.find? p with
      | some x => some x
      | none => l₂.find? p := by
  induction l₁ with
  | nil => simp [List.find?]
  | cons a as ih => cases hp : p a <;> simp [List.find?_cons, hp, ih]

theorem reverse_find?_eq {α : Type _} (l₁ l₂ : List α) (x : α) (p : α → Bool)
    (hx : p x = true) (h₂ : ∀ y ∈ l₂, p y = false) :
    (l₁ ++ x :: l₂).reverse.find? p = some x := by
  have hr : (l₁ ++ x :: l₂).reverse = l₂.reverse ++ x :: l₁.reverse := by
    simp [List.reverse_append]
  rw [hr, find?_append_cases]
  have h2 : l₂.reverse.find? p = none := by
    rw [List.find?_eq_none]
    intro y hy
    simp [h₂ y (List.mem_reverse.mp hy)]
  simp only [h2, List.find?_cons, hx]

theorem build_byAPIKey (cs : List ClientApp) (r r' : Client.Registry)
    (h : Client.build r cs = some r') (k : Str) :
    mapLookup r'.byAPIKey k =
      match cs.reverse.find? (fun c => c.apiKey = k) with
      | some c => some c
      | none => mapLookup r.byAPIKey k := by
  induction cs generalizing r with
  | nil =>
    simp only [Client.build, Option.some_inj] at h
    subst h
    simp [List.find?]
  | cons c cs' ih =>
    simp only [Client.build] at h
    by_cases hg : (mapLookup r.byID c.id).isSome
    · rw [if_pos hg] at h
      exact Option.noConfusion h
    · rw [if_neg hg] at h
      rw [ih _ h, List.reverse_cons, find?_append_cases]
      cases hf : cs'.reverse.find? (fun c' => c'.apiKey = k) with
      | some y => rfl
      | none =>
        by_cases hck : c.apiKey = k
        · subst hck
          simp [List.find?_cons, mapLookup_insert_self]
        · simp [List.find?_cons, hck, mapLookup_insert_other _ _ _ _ hck]

theorem build_byID (cs : List ClientApp) (r r' : Client.Registry)
    (h : Client.build r cs = some r') (k : Str) :
    mapLookup r'.byID k =
      match cs.reverse.find? (fun c => c.id = k) with
      | some c => some c
      | none => mapLookup r.byID k := by
  induction cs generalizing r with
  | nil =>
    simp only [Client.build, Option.some_inj] at h
    subst h
    simp [List.find?]
  | cons c cs' ih =>
    simp only [Client.build] at h
    by_cases hg : (mapLookup r.byID c.id).isSome
    · rw [if_pos hg] at h
      exact Option.noConfusion h
    · rw [if_neg hg] at h
      rw [ih _ h, List.reverse_cons, find?_append_cases]
      cases hf : cs'.reverse.find? (fun c' => c'.id = k) with
      | some y => rfl
      | none =>
        by_cases hck : c.id = k
        · subst hck
          simp [List.find?_cons, mapLookup_insert_self]
        · simp [List.find?_cons, hck, mapLookup_insert_other _ _ _ _ hck]

theorem build_total (cs : List ClientApp) (r : Client.Registry)
    (hnd : (cs.map (fun c => c.id)).Nodup)
    (hout : ∀ c ∈ cs, mapLookup r.byID c.id = none) :
    ∃ r', Client.build r cs = some r' := by
  induction cs generalizing r with
  | nil => exact ⟨r, rfl⟩
  | cons c cs' ih =>
    have hc : mapLookup r.byID c.id = none := hout c (List.mem_cons_self c cs')
    rw [List.map_cons, List.nodup_cons] at hnd
    have step : Client.build r (c :: cs') =
        Client.build ⟨mapInsert r.byID c.id c, mapInsert r.byAPIKey c.apiKey c⟩ cs' := by
      simp [Client.build, hc]
    rw [step]
    refine ih _ hnd.2 ?_
    intro c' hc'
    have hne : c.id ≠ c'.id := by
      intro he
      exact hnd.1 (he ▸ List.mem_map_of_mem (fun c => c.id) hc')
    rw [show (Client.Registry.mk (mapInsert r.byID c.id c)
        (mapInsert r.byAPIKey c.apiKey c)).byID = mapInsert r.byID c.id c from rfl]
    rw [mapLookup_insert_other _ _ _ _ hne]
    exact hout c' (List.mem_cons_of_mem c hc')

theorem nodup_map_split {α β : Type _} (f : α → β) (l₁ l₂ : List α) (x : α)
    (h : ((l₁ ++ x :: l₂).map f).Nodup) :
    (∀ y ∈ l₁, f y ≠ f x) ∧ (∀ y ∈ l₂, f y ≠ f x) := by
  rw [List.map_append, List.map_cons, List.nodup_append] at h
  obtain ⟨h1, h2, hdisj⟩ := h
  rw [List.nodup_cons] at h2
  constructor
  · intro y hy he
    exact hdisj (List.mem_map_of_mem f hy) (by rw [he]; exact List.mem_cons_self _ _)
  · intro y hy he
    exact h2.1 (by rw [← he]; exact List.mem_map_of_mem f hy)

/-- C10: feeding the registry constructor a list holding two records
with distinct ids but the same API key (the second not followed by yet
another holder of that key) succeeds without error, and API-key lookup
on the shared key — including on the earlier record's own key —
returns the record appearing later in the list, while both records
stay reachable by id. -/
theorem duplicate_api_key_later_wins
    (clients l₁ l₂ l₃ : List ClientApp) (c1 c2 : ClientApp)
    (hdec : clients = l₁ ++ c1 :: (l₂ ++ c2 :: l₃))
    (hids : (clients.map (fun c => c.id)).Nodup)
    (hkey : c1.apiKey = c2.apiKey)
    (hlater : ∀ c ∈ l₃, c.apiKey ≠ c2.apiKey) :
    ∃ r, Client.NewRegistry clients = some r ∧
      c1.id ≠ c2.id ∧
      Client.GetByAPIKey r c1.apiKey = some c2 ∧
      Client.Get r c1.id = some c1 ∧
      Client.Get r c2.id = some c2 := by
  subst hdec
  obtain ⟨hL1, hR1⟩ := nodup_map_split (fun c => c.id) l₁ (l₂ ++ c2 :: l₃) c1 hids
  have hassoc : l₁ ++ c1 :: (l₂ ++ c2 :: l₃) = (l₁ ++ c1 :: l₂) ++ c2 :: l₃ := by
    simp
  have hids2 : (((l₁ ++ c1 :: l₂) ++ c2 :: l₃).map (fun c => c.id)).Nodup := by
    rw [← hassoc]
    exact hids
  obtain ⟨hL2, hR2⟩ := nodup_map_split (fun c => c.id) (l₁ ++ c1 :: l₂) l₃ c2 hids2
  have hid12 : c1.id ≠ c2.id := by
    intro he
    exact hR1 c2 (by simp) he.symm
  obtain ⟨r, hr⟩ := build_total _ ⟨[], []⟩ hids (fun c _ => rfl)
  refine ⟨r, hr, hid12, ?_, ?_, ?_⟩
  · rw [getByAPIKey_eq_mapLookup, build_byAPIKey _ _ _ hr, hassoc,
      reverse_find?_eq (l₁ ++ c1 :: l₂) l₃ c2 _ (by simp [hkey.symm])
        (fun y hy => by simp [hkey, hlater y hy])]
  · show mapLookup r.byID c1.id = some c1
    rw [build_byID _ _ _ hr,
      reverse_find?_eq l₁ (l₂ ++ c2 :: l₃) c1 _ (by simp)
        (fun y hy => by simp [hR1 y hy])]
  · show mapLookup r.byID c2.id = some c2
    rw [build_byID _ _ _ hr, hassoc,
      reverse_find?_eq (l₁ ++ c1 :: l₂) l₃ c2 _ (by simp)
        (fun y hy => by simp [hR2 y hy])]

/-- The earlier client of the C10 witness. -/
def c10Alpha : ClientApp :=
  { id := "alpha".data, name := "Alpha".data, apiKey := "shared-key".data,
    allowedCallbacks := [], allowedProviders := [] }

/-- The later client of the C10 witness, sharing the API key. -/
def c10Beta : ClientApp :=
  { id := "beta".data, name := "Beta".data, apiKey := "shared-key".data,
    allowedCallbacks := [], allowedProviders := [] }

/-- Witness for C10 at the two-client list sharing one key. -/
theorem duplicate_api_key_later_wins_witness :
    ∃ r, Client.NewRegistry [c10Alpha, c10Beta] = some r ∧
      c10Alpha.id ≠ c10Beta.id ∧
      Client.GetByAPIKey r c10Alpha.apiKey = some c10Beta ∧
      Client.Get r c10Alpha.id = some c10Alpha ∧
      Client.Get r c10Beta.id = some c10Beta :=
  duplicate_api_key_later_wins [c10Alpha, c10Beta] [] [] [] c10Alpha c10Beta rfl
    (by decide) (by decide) (by decide)

end CentralAuth
